import Mathlib

/-!
Shallow embedding of the cluster-headache Monte Carlo simulation
(`Cluster_headache_app.py` and `simulation.py`).

Random draws (scipy `rvs` calls, `np.random.choice`) are modelled as explicit
parameters: each embedded function takes the sampled values as inputs, and the
deterministic transformation the source applies downstream of the draw is
embedded exactly.  Python/NumPy floating-point arithmetic is modelled by exact
rationals `ℚ` (or reals `ℝ` where the source computes with `exp`/`log`/`sqrt`
or real exponents).  `np.round` / Python `round` use round-half-to-even,
modelled by `npRound`; Python `int()` truncates toward zero, modelled by
`pyInt`; Python division raises `ZeroDivisionError` on a zero denominator,
modelled by the `Option`-valued `pyDiv`.
-/

namespace ClusterHeadache

/-- Round-half-to-even on rationals, the rounding rule of `np.round` (with
`decimals=0`) and of Python's built-in `round`. -/
def npRound (q : ℚ) : ℤ :=
  if q - ⌊q⌋ < 1/2 then ⌊q⌋
  else if 1/2 < q - ⌊q⌋ then ⌊q⌋ + 1
  else if ⌊q⌋ % 2 = 0 then ⌊q⌋ else ⌊q⌋ + 1

/-- Python `int()` on a float: truncation toward zero. -/
def pyInt (q : ℚ) : ℤ :=
  if 0 ≤ q then ⌊q⌋ else -⌊-q⌋

/-- Python true division, which raises `ZeroDivisionError` on a zero
denominator. -/
def pyDiv (a b : ℚ) : Option ℚ :=
  if b = 0 then none else some (a / b)

/-- `round(x, 1)` / `np.round(x, decimals=1)`: round to one decimal place. -/
def roundTo1 (q : ℚ) : ℚ :=
  (npRound (10 * q) : ℚ) / 10

/-- `np.clip(x, lo, hi)`. -/
def npClip (x lo hi : ℚ) : ℚ :=
  min (max x lo) hi

/-! ## Attack generation (`Cluster_headache_app.py`)

A single attack of the vectorized pool generation: the sampled values
(`lognorm.rvs`, `truncnorm.rvs`, `expon.rvs`, `beta.rvs`, `np.random.choice`)
enter as parameters. -/

/-- One attack's worth of raw random draws consumed by the pool generation. -/
structure AttackDraws where
  choice : ℕ
  mild_draw : ℚ
  moderate_draw : ℚ
  severe_expon_draw : ℚ
  base_duration_draw : ℚ
  beta_draw : ℚ
  deriving DecidableEq

/-- `generate_max_pain_intensity` for a single attack.  `choice` selects the
mixture component (`np.random.choice(3, p=...)`; the component weights affect
only the distribution of `choice`, not the support).  `mild_draw` and
`moderate_draw` are the two truncated-normal draws, `severe_expon_draw` the
exponential draw (`very_severe = 10 - expon.rvs(...)`).  The result is
`np.round(np.clip(intensity, 1, 10), decimals=1)`. -/
def generate_max_pain_intensity (choice : ℕ) (mild_draw moderate_draw severe_expon_draw : ℚ) : ℚ :=
  let very_severe := 10 - severe_expon_draw
  let intensity := if choice = 0 then mild_draw
    else if choice = 1 then moderate_draw
    else very_severe
  roundTo1 (npClip intensity 1 10)

/-- `generate_attack_duration` for a single attack.  `base_duration_draw` is the
`lognorm.rvs(s=0.4, scale=exp(mu))` draw, where `mu = 4.0` plus `0.3` if
chronic (the chronicity shifts only the draw's distribution; the
transformation downstream of the draw is embedded exactly).  `beta_draw` is the
`beta.rvs(5, 2)` draw used for the treated branch.  The result is
`np.clip(np.round(adjusted_durations).astype(int), 15, 360)`. -/
def generate_attack_duration (is_treated : Bool) (base_duration_draw max_intensity beta_draw : ℚ) : ℤ :=
  let intensity_factor := 1064/10000 * max_intensity + 5797/10000
  let adjusted := base_duration_draw * intensity_factor
  let adjusted := if is_treated then
      let max_effect : ℚ := 3/10
      let intensity_normalized := (max_intensity - 1) / 9
      let mean_effect := 1 - max_effect * intensity_normalized
      adjusted * (beta_draw * mean_effect)
    else adjusted
  min (max (npRound adjusted) 15) 360

/-- The `Attack` dataclass. -/
structure Attack where
  total_duration : ℤ
  max_intensity : ℚ
  max_intensity_duration : ℤ
  deriving DecidableEq

/-- One element of `Patient.pre_generate_attack_pool`: intensity first, then a
duration correlated with it, then `max_intensity_durations =
np.round(0.7 * total_durations).astype(int)`. -/
def mkPoolAttack (is_treated : Bool) (d : AttackDraws) : Attack :=
  let mi := generate_max_pain_intensity d.choice d.mild_draw d.moderate_draw d.severe_expon_draw
  let td := generate_attack_duration is_treated d.base_duration_draw mi d.beta_draw
  ⟨td, mi, npRound (7/10 * (td : ℚ))⟩

/-- `Patient.pre_generate_attack_pool`: a pool of `max_attacks` attacks, where
`max_attacks = active_days * 8` (chronic) or `sum(bout_durations) * 8`
(episodic).  `draws i` supplies the random draws of the `i`-th pool slot. -/
def pre_generate_attack_pool (is_treated : Bool) (max_attacks : ℕ) (draws : ℕ → AttackDraws) : List Attack :=
  (List.range max_attacks).map (fun i => mkPoolAttack is_treated (draws i))

/-! ## Chronic active days and attacks per day -/

/-- `generate_chronic_active_days`: `active_days = int(lognorm.rvs(s=.5,
scale=exp(log(200))))`, then `min(active_days, 365)`.  The lognormal draw is
the parameter `draw`. -/
def generate_chronic_active_days (draw : ℚ) : ℤ :=
  min (pyInt draw) 365

/-- `generate_attacks_per_day`: the (mu, sigma) pair selects only the
distribution of the lognormal draw; with the default `max_daily_ch=np.inf` the
first draw is accepted by the rejection loop.  Returns
`max(1, round(attacks))`. -/
def generate_attacks_per_day (draw : ℚ) : ℕ :=
  (max 1 (npRound draw)).toNat

/-! ## Day simulation and pool replenishment (`Patient.generate_day_attacks`) -/

/-- The mutable patient state read and written by `generate_day_attacks`:
`attack_pool`, `pool_index`, the realized `attacks` list, plus a counter
selecting fresh randomness for each pool regeneration. -/
structure DayState where
  attack_pool : List Attack
  pool_index : ℕ
  attacks : List Attack
  regen_count : ℕ
  deriving DecidableEq

/-- The body of the `for _ in range(attacks_today)` loop of
`generate_day_attacks`, iterated `n` times.  If `pool_index` has reached the
pool length, `pre_generate_attack_pool` is re-run (with fresh draws
`fresh s.regen_count`) and the cursor reset to 0; then
`self.attack_pool[self.pool_index]` is appended to `attacks` — an
out-of-range index (Python `IndexError`) is modelled by `none`. -/
def generate_day_attacks_loop (is_treated : Bool) (max_attacks : ℕ)
    (fresh : ℕ → ℕ → AttackDraws) : ℕ → DayState → Option DayState
  | 0, s => some s
  | n + 1, s =>
    let s1 := if s.attack_pool.length ≤ s.pool_index then
        { s with attack_pool := pre_generate_attack_pool is_treated max_attacks (fresh s.regen_count),
                 pool_index := 0,
                 regen_count := s.regen_count + 1 }
      else s
    (s1.attack_pool[s1.pool_index]?).bind (fun a =>
      generate_day_attacks_loop is_treated max_attacks fresh n
        { s1 with attacks := s1.attacks ++ [a], pool_index := s1.pool_index + 1 })

/-- `Patient.generate_day_attacks`: draw `attacks_today`, then pull that many
attacks off the pool, replenishing as needed. -/
def generate_day_attacks (is_treated : Bool) (max_attacks : ℕ)
    (fresh : ℕ → ℕ → AttackDraws) (day_draw : ℚ) (s : DayState) : Option DayState :=
  generate_day_attacks_loop is_treated max_attacks fresh (generate_attacks_per_day day_draw) s

/-! ## Intensity-minutes dictionary (`Patient.calculate_intensity_minutes`) -/

/-- `d.get(k, 0)` on a Python dict modelled as an insertion-ordered
association list. -/
def dictGet (m : List (ℚ × ℤ)) (k : ℚ) : ℤ :=
  ((m.find? (fun p => decide (p.1 = k))).map Prod.snd).getD 0

/-- `d[k] = v` on a Python dict: overwrite in place if the key exists,
otherwise append. -/
def dictSet (m : List (ℚ × ℤ)) (k : ℚ) (v : ℤ) : List (ℚ × ℤ) :=
  if m.any (fun p => decide (p.1 = k)) then
    m.map (fun p => if p.1 = k then (p.1, v) else p)
  else m ++ [(k, v)]

/-- `Patient.calculate_intensity_minutes`: bucket each realized attack's
`round(max_intensity, 1)` into cumulative `max_intensity_duration` minutes. -/
def calculate_intensity_minutes (attacks : List Attack) : List (ℚ × ℤ) :=
  attacks.foldl
    (fun m a =>
      let intensity := roundTo1 a.max_intensity
      dictSet m intensity (dictGet m intensity + a.max_intensity_duration))
    []

/-! ## Per-group aggregation (`Simulation.calculate_results`, and the
identical inner loop of `calculate_group_data` in the app) -/

/-- The 101 keys `round(i, 1)` for `i in np.arange(0, 10.1, 0.1)`:
`0.0, 0.1, ..., 10.0`. -/
def bucketKeys : List ℚ :=
  (List.range 101).map (fun k => (k : ℚ) / 10)

/-- `intensity_minutes_list[rounded_intensity].append(minutes)`: appends to the
list stored under an existing key; a missing key is a Python `KeyError`,
modelled by `none`. -/
def dictAppend (m : List (ℚ × List ℤ)) (k : ℚ) (v : ℤ) : Option (List (ℚ × List ℤ)) :=
  if m.any (fun p => decide (p.1 = k)) then
    some (m.map (fun p => if p.1 = k then (p.1, p.2 ++ [v]) else p))
  else none

/-- One `(intensity, minutes)` item of a patient's dict, folded into
`total_intensity_minutes` and `intensity_minutes_list`. -/
def bucketStep (acc : List (ℚ × ℤ) × List (ℚ × List ℤ)) (kv : ℚ × ℤ) :
    Option (List (ℚ × ℤ) × List (ℚ × List ℤ)) :=
  let rounded := roundTo1 kv.1
  let total := dictSet acc.1 rounded (dictGet acc.1 rounded + kv.2)
  match dictAppend acc.2 rounded kv.2 with
  | none => none
  | some l => some (total, l)

/-- The per-patient part of the group loop: fold the items of
`patient.calculate_intensity_minutes()` into the two accumulator dicts. -/
def processPatient (acc : List (ℚ × ℤ) × List (ℚ × List ℤ)) (attacks : List Attack) :
    Option (List (ℚ × ℤ) × List (ℚ × List ℤ)) :=
  (calculate_intensity_minutes attacks).foldlM bucketStep acc

/-- `np.std` (population standard deviation) of a list of minute counts, or 0
for an empty list (`if intensity_minutes_list[...] else 0`). -/
noncomputable def npStd (l : List ℤ) : ℝ :=
  if l = [] then 0
  else
    let mean : ℝ := (l.map (fun x => (x : ℝ))).sum / l.length
    Real.sqrt ((l.map (fun x => ((x : ℝ) - mean) ^ 2)).sum / l.length)

/-- One group of `Simulation.calculate_results`: each patient is a list of
realized attacks; `n_patients = len(group_patients)`; then
`intensity_minutes_average = [total.get(round(i,1), 0) / n_patients ...]` —
with no `n_patients > 0` check, so an empty group divides zero by zero
(`pyDiv` returns `none`, modelling the `ZeroDivisionError`). -/
noncomputable def calculate_results_group (group_patients : List (List Attack)) :
    Option (List ℚ × List ℝ × List ℤ × ℕ) := do
  let init : List (ℚ × ℤ) × List (ℚ × List ℤ) :=
    ([], bucketKeys.map (fun k => (k, ([] : List ℤ))))
  let acc ← group_patients.foldlM processPatient init
  let n := group_patients.length
  let average ← bucketKeys.mapM (fun k => pyDiv (dictGet acc.1 k : ℚ) (n : ℚ))
  let std := bucketKeys.map (fun k =>
    npStd ((((acc.2.find? (fun p => decide (p.1 = k))).map Prod.snd).getD [])))
  let total := bucketKeys.map (fun k => dictGet acc.1 k)
  return (average, std, total, n)

/-! ## Worldwide group sizes (`Simulation.calculate_ch_groups` and the same
computation in `main`) -/

/-- The configuration knobs consumed by `Simulation`.  The `SimulationConfig`
module itself is not part of the two source files. -/
structure SimulationConfig where
  annual_prevalence_per_100k : ℚ
  world_population : ℚ
  adult_fraction : ℚ
  prop_chronic : ℚ
  prop_treated : ℚ
  percent_of_patients_to_simulate : ℚ

/-- Modelled from the spec: the `SimulationConfig` module (which supplies
`config.prop_episodic` read by `Simulation.calculate_ch_groups`) is not under
`src/`; per the spec the complements are derived, `prop_episodic =
1 - prop_chronic`. -/
def SimulationConfig.prop_episodic (c : SimulationConfig) : ℚ :=
  1 - c.prop_chronic

/-- Modelled from the spec: `prop_untreated = 1 - prop_treated` (see
`SimulationConfig.prop_episodic`). -/
def SimulationConfig.prop_untreated (c : SimulationConfig) : ℚ :=
  1 - c.prop_treated

/-- `total_ch_sufferers = world_population * adult_fraction *
(annual_prevalence_per_100k / 100000)`. -/
def total_ch_sufferers (c : SimulationConfig) : ℚ :=
  c.world_population * c.adult_fraction * (c.annual_prevalence_per_100k / 100000)

/-- The four worldwide group sizes. -/
structure CHGroups where
  episodic_treated : ℤ
  episodic_untreated : ℤ
  chronic_treated : ℤ
  chronic_untreated : ℤ
  deriving DecidableEq

/-- `Simulation.calculate_ch_groups`: the dict entries read
`self.config.prop_episodic` / `self.config.prop_untreated` (the local
variables `prop_episodic = self.config.prop_chronic` and `prop_untreated =
self.config.prop_treated` assigned just above the dict are dead: nothing reads
them). -/
def calculate_ch_groups (c : SimulationConfig) : CHGroups :=
  ⟨pyInt (total_ch_sufferers c * c.prop_episodic * c.prop_treated),
   pyInt (total_ch_sufferers c * c.prop_episodic * c.prop_untreated),
   pyInt (total_ch_sufferers c * c.prop_chronic * c.prop_treated),
   pyInt (total_ch_sufferers c * c.prop_chronic * c.prop_untreated)⟩

/-- The equivalent computation in `main` (`Cluster_headache_app.py`), where the
complements are taken explicitly: `prop_episodic = 1 - prop_chronic`,
`prop_untreated = 1 - prop_treated`. -/
def main_ch_groups (annual_prevalence_per_100k world_population adult_fraction
    prop_chronic prop_treated : ℚ) : CHGroups :=
  let annual_prevalence := annual_prevalence_per_100k / 100000
  let total := world_population * adult_fraction * annual_prevalence
  let prop_episodic := 1 - prop_chronic
  let prop_untreated := 1 - prop_treated
  ⟨pyInt (total * prop_episodic * prop_treated),
   pyInt (total * prop_episodic * prop_untreated),
   pyInt (total * prop_chronic * prop_treated),
   pyInt (total * prop_chronic * prop_untreated)⟩

/-- `Simulation.get_total_ch_sufferers`: `int(self.total_ch_sufferers)`. -/
def get_total_ch_sufferers (c : SimulationConfig) : ℤ :=
  pyInt (total_ch_sufferers c)

/-- The per-group simulated patient count of `Simulation.generate_population`:
`fraction = percent_of_patients_to_simulate / 100; n_patients =
int(total * fraction)`. -/
def n_simulated (c : SimulationConfig) (group_count : ℤ) : ℤ :=
  pyInt ((group_count : ℚ) * (c.percent_of_patients_to_simulate / 100))

/-- The configuration of the end-to-end scenario of the spec. -/
def config_scenario : SimulationConfig :=
  ⟨53, 8200000000, 72/100, 20/100, 48/100, 2/100⟩

/-! ## Intensity-scale transforms (`transform_intensity`) -/

/-- The model function of the `custom_exp` fit: `A * np.exp(B * x) + C`. -/
noncomputable def exp_func (A B C x : ℝ) : ℝ :=
  A * Real.exp (B * x) + C

/-- The six supported method names, in the order the source tests them. -/
def supportedMethods : List String :=
  ["linear", "power", "power_scaled", "custom_exp", "piecewise_linear", "log"]

/-- `transform_intensity` at a single intensity `x`.  `fit = (A, B, C)` is the
triple `scipy.optimize.curve_fit` returns for the `custom_exp` branch (the
optimizer itself is a scipy internal; its output enters as a parameter).
A raised `ValueError` is modelled by `Except.error` with the source's check
order: `max_value <= 0` is tested before any method dispatch, and an unknown
method name reaches the final `raise`. -/
noncomputable def transform_intensity (x : ℝ) (method : String) (power max_value : ℝ)
    (fit : ℝ × ℝ × ℝ) : Except String ℝ :=
  if max_value ≤ 0 then .error "max_value must be positive"
  else if method = "linear" then .ok (x * (max_value / 10))
  else if method = "power" then .ok ((x ^ power) * (max_value / (10 : ℝ) ^ power))
  else if method = "power_scaled" then .ok ((x / 10) ^ power * max_value)
  else if method = "custom_exp" then .ok (exp_func fit.1 fit.2.1 fit.2.2 x)
  else if method = "piecewise_linear" then
    let breakpoint : ℝ := 8
    let lower_slope := (max_value / 2) / breakpoint
    let upper_slope := (max_value / 2) / (10 - breakpoint)
    .ok (if x ≤ breakpoint then lower_slope * x
         else (max_value / 2) + upper_slope * (x - breakpoint))
  else if method = "log" then
    .ok (((10 : ℝ) ^ (x / 2.5) - 1) * (max_value / ((10 : ℝ) ^ ((10 : ℝ) / 2.5) - 1)))
  else .error "Invalid method"

/-! ## Lognormal moment matching (`fit_lognormal`) -/

/-- `fit_lognormal(mean, std)`: `mu = log(mean^2 / sqrt(variance + mean^2))`,
`sigma = sqrt(log(1 + variance / mean^2))`. -/
noncomputable def fit_lognormal (mean std : ℝ) : ℝ × ℝ :=
  let variance := std ^ 2
  (Real.log (mean ^ 2 / Real.sqrt (variance + mean ^ 2)),
   Real.sqrt (Real.log (1 + variance / mean ^ 2)))

/-- Modelled from the spec: the analytic mean of a lognormal distribution with
parameters `(mu, sigma)`, `exp(mu + sigma^2 / 2)` (the spec's round-trip
property computes the distribution's mean analytically from the parameters;
no such function exists in the source). -/
noncomputable def lognormal_mean (mu sigma : ℝ) : ℝ :=
  Real.exp (mu + sigma ^ 2 / 2)

/-- Modelled from the spec: the analytic standard deviation of a lognormal
distribution with parameters `(mu, sigma)`,
`sqrt((exp(sigma^2) - 1) * exp(2 * mu + sigma^2))`. -/
noncomputable def lognormal_std (mu sigma : ℝ) : ℝ :=
  Real.sqrt ((Real.exp (sigma ^ 2) - 1) * Real.exp (2 * mu + sigma ^ 2))

/-! ## Concrete fixtures used by witness theorems -/

/-- A concrete set of raw draws for one attack. -/
def testDraws : AttackDraws :=
  ⟨0, 4, 15/2, 7/10, 50, 1/2⟩

/-- A concrete one-slot attack pool. -/
def testPool : List Attack :=
  pre_generate_attack_pool true 1 (fun _ => testDraws)

/-- A concrete initial day state over `testPool`. -/
def testDayState : DayState :=
  ⟨testPool, 0, [], 0⟩

/-! # Helper lemmas -/

theorem npRound_ge_floor (q : ℚ) : ⌊q⌋ ≤ npRound q := by
  unfold npRound
  split_ifs <;> omega

theorem npRound_eq_floor_or_succ (q : ℚ) :
    npRound q = ⌊q⌋ ∨ npRound q = ⌊q⌋ + 1 := by
  unfold npRound
  split_ifs <;> simp

theorem npRound_bounds {a b : ℤ} {q : ℚ} (h1 : (a : ℚ) ≤ q) (h2 : q ≤ (b : ℚ)) :
    a ≤ npRound q ∧ npRound q ≤ b := by
  have hfa : a ≤ ⌊q⌋ := Int.le_floor.mpr h1
  have hfb : ⌊q⌋ ≤ b := by
    have := Int.floor_le_floor h2
    simpa using this
  constructor
  · exact le_trans hfa (npRound_ge_floor q)
  · unfold npRound
    split_ifs with hlt hgt heven
    · exact hfb
    · -- 1/2 < q - ⌊q⌋, so ⌊q⌋ < b, hence ⌊q⌋ + 1 ≤ b
      have hq : (⌊q⌋ : ℚ) + 1/2 < q := by linarith
      have : (⌊q⌋ : ℚ) < (b : ℚ) := by linarith
      have : ⌊q⌋ < b := by exact_mod_cast this
      omega
    · exact hfb
    · -- exact half case rounding up: q = ⌊q⌋ + 1/2 ≤ b
      have hq : (⌊q⌋ : ℚ) + 1/2 ≤ q := by linarith
      have : (⌊q⌋ : ℚ) < (b : ℚ) := by linarith
      have : ⌊q⌋ < b := by exact_mod_cast this
      omega

theorem npRound_intCast (n : ℤ) : npRound (n : ℚ) = n := by
  unfold npRound
  have h : ⌊(n : ℚ)⌋ = n := Int.floor_intCast n
  rw [h]
  norm_num

theorem pyInt_eq_of_bounds {q : ℚ} {n : ℤ} (h0 : 0 ≤ q) (h1 : (n : ℚ) ≤ q)
    (h2 : q < n + 1) : pyInt q = n := by
  unfold pyInt
  rw [if_pos h0]
  exact Int.floor_eq_iff.mpr ⟨h1, by exact_mod_cast h2⟩

theorem total_ch_sufferers_scenario : total_ch_sufferers config_scenario = 3129120 := by
  norm_num [total_ch_sufferers, config_scenario]

theorem get_total_ch_sufferers_scenario : get_total_ch_sufferers config_scenario = 3129120 := by
  unfold get_total_ch_sufferers
  rw [total_ch_sufferers_scenario]
  exact pyInt_eq_of_bounds (by norm_num) (by norm_num) (by norm_num)

theorem length_pre_generate_attack_pool (is_treated : Bool) (max_attacks : ℕ) (draws : ℕ → AttackDraws) :
    (pre_generate_attack_pool is_treated max_attacks draws).length = max_attacks := by
  simp [pre_generate_attack_pool]

/-- The clipped-and-rounded intensity is `k/10` for an integer `10 ≤ k ≤ 100`. -/
theorem generate_max_pain_intensity_form (choice : ℕ) (m mo se : ℚ) :
    ∃ k : ℤ, 10 ≤ k ∧ k ≤ 100 ∧
      generate_max_pain_intensity choice m mo se = (k : ℚ) / 10 := by
  unfold generate_max_pain_intensity roundTo1
  set x := npClip (if choice = 0 then m else if choice = 1 then mo else 10 - se) 1 10 with hx
  have hx1 : (1 : ℚ) ≤ x := by
    rw [hx]
    unfold npClip
    simp only [le_min_iff, le_max_iff]
    constructor
    · right; exact le_refl 1
    · norm_num
  have hx10 : x ≤ 10 := by
    rw [hx]; unfold npClip; exact min_le_right _ _
  have h1 : ((10 : ℤ) : ℚ) ≤ 10 * x := by push_cast; linarith
  have h2 : 10 * x ≤ ((100 : ℤ) : ℚ) := by push_cast; linarith
  obtain ⟨hlo, hhi⟩ := npRound_bounds h1 h2
  exact ⟨npRound (10 * x), hlo, hhi, rfl⟩

theorem generate_max_pain_intensity_bounds (choice : ℕ) (m mo se : ℚ) :
    1 ≤ generate_max_pain_intensity choice m mo se ∧
      generate_max_pain_intensity choice m mo se ≤ 10 := by
  obtain ⟨k, hk1, hk2, hk3⟩ := generate_max_pain_intensity_form choice m mo se
  rw [hk3]
  have hq1 : ((10 : ℤ) : ℚ) ≤ (k : ℚ) := by exact_mod_cast hk1
  have hq2 : (k : ℚ) ≤ ((100 : ℤ) : ℚ) := by exact_mod_cast hk2
  push_cast at hq1 hq2
  constructor
  · rw [le_div_iff₀ (by norm_num : (0:ℚ) < 10)]
    linarith
  · rw [div_le_iff₀ (by norm_num : (0:ℚ) < 10)]
    linarith

theorem generate_attack_duration_bounds (is_treated : Bool) (bd mi be : ℚ) :
    15 ≤ generate_attack_duration is_treated bd mi be ∧
      generate_attack_duration is_treated bd mi be ≤ 360 := by
  unfold generate_attack_duration
  constructor <;> simp

theorem mkPoolAttack_total_duration (it : Bool) (d : AttackDraws) :
    (mkPoolAttack it d).total_duration =
      generate_attack_duration it d.base_duration_draw
        (generate_max_pain_intensity d.choice d.mild_draw d.moderate_draw d.severe_expon_draw)
        d.beta_draw := rfl

theorem mkPoolAttack_max_intensity (it : Bool) (d : AttackDraws) :
    (mkPoolAttack it d).max_intensity =
      generate_max_pain_intensity d.choice d.mild_draw d.moderate_draw d.severe_expon_draw := rfl

theorem mkPoolAttack_mid (it : Bool) (d : AttackDraws) :
    (mkPoolAttack it d).max_intensity_duration =
      npRound (7/10 * ((mkPoolAttack it d).total_duration : ℚ)) := rfl

theorem mapM_pyDiv_zero_ne_nil (f : ℚ → ℚ) (l : List ℚ) (hl : l ≠ []) :
    l.mapM (fun k => pyDiv (f k) 0) = none := by
  cases l with
  | nil => exact absurd rfl hl
  | cons x xs => simp [List.mapM_cons, List.mapM.loop, pyDiv]

theorem bucketKeys_ne_nil : bucketKeys ≠ [] := by
  simp [bucketKeys, List.range_succ]

theorem generate_day_attacks_loop_spec (it : Bool) (maxA : ℕ) (fresh : ℕ → ℕ → AttackDraws)
    (hpos : 0 < maxA) :
    ∀ (n : ℕ) (s : DayState), s.attack_pool.length = maxA → s.pool_index ≤ maxA →
      ∃ s', generate_day_attacks_loop it maxA fresh n s = some s' ∧
        s'.attacks.length = s.attacks.length + n ∧
        s'.attack_pool.length = maxA ∧ s'.pool_index ≤ maxA := by
  intro n
  induction n with
  | zero =>
    intro s h1 h2
    exact ⟨s, rfl, by simp, h1, h2⟩
  | succ n ih =>
    intro s h1 h2
    by_cases hc : s.attack_pool.length ≤ s.pool_index
    · -- the cursor has reached the pool length: regenerate, reset, then draw
      have hlen' : (pre_generate_attack_pool it maxA (fresh s.regen_count)).length = maxA :=
        length_pre_generate_attack_pool it maxA (fresh s.regen_count)
      have h0 : 0 < (pre_generate_attack_pool it maxA (fresh s.regen_count)).length := by
        rw [hlen']; exact hpos
      obtain ⟨s', heq, hl, hp, hi⟩ := ih
        ⟨pre_generate_attack_pool it maxA (fresh s.regen_count), 0 + 1,
          s.attacks ++ [(pre_generate_attack_pool it maxA (fresh s.regen_count))[0]],
          s.regen_count + 1⟩ hlen' (by show 0 + 1 ≤ maxA; omega)
      refine ⟨s', ?_, ?_, hp, hi⟩
      · rw [generate_day_attacks_loop]
        simp only [if_pos hc, List.getElem?_eq_getElem h0, Option.some_bind]
        exact heq
      · simp only [List.length_append, List.length_cons, List.length_nil] at hl
        omega
    · -- the cursor is still inside the pool
      have hlt : s.pool_index < s.attack_pool.length := by omega
      obtain ⟨s', heq, hl, hp, hi⟩ := ih
        ⟨s.attack_pool, s.pool_index + 1, s.attacks ++ [s.attack_pool[s.pool_index]],
          s.regen_count⟩ h1 (by show s.pool_index + 1 ≤ maxA; omega)
      refine ⟨s', ?_, ?_, hp, hi⟩
      · rw [generate_day_attacks_loop]
        simp only [if_neg hc, List.getElem?_eq_getElem hlt, Option.some_bind]
        exact heq
      · simp only [List.length_append, List.length_cons, List.length_nil] at hl
        omega

theorem roundTo1_int_div_ten (k : ℤ) : roundTo1 ((k : ℚ)/10) = (k : ℚ)/10 := by
  unfold roundTo1
  rw [show (10 : ℚ) * ((k : ℚ)/10) = (k : ℚ) by ring, npRound_intCast]

theorem mem_dictSet_keys (m : List (ℚ × ℤ)) (k : ℚ) (v : ℤ) :
    ∀ p ∈ dictSet m k v, p.1 ∈ m.map Prod.fst ∨ p.1 = k := by
  intro p hp
  unfold dictSet at hp
  split_ifs at hp with h
  · simp only [List.mem_map] at hp
    obtain ⟨q, hq, hpq⟩ := hp
    by_cases hqk : q.1 = k
    · right
      rw [if_pos hqk] at hpq
      rw [← hpq]
      exact hqk
    · left
      rw [if_neg hqk] at hpq
      rw [← hpq]
      exact List.mem_map_of_mem Prod.fst hq
  · rcases List.mem_append.mp hp with h1 | h2
    · left
      exact List.mem_map_of_mem Prod.fst h1
    · right
      simp only [List.mem_singleton] at h2
      rw [h2]

theorem calculate_intensity_minutes_keys_aux (attacks : List Attack) :
    ∀ (m0 : List (ℚ × ℤ)), ∀ p ∈ attacks.foldl
      (fun m a => dictSet m (roundTo1 a.max_intensity)
        (dictGet m (roundTo1 a.max_intensity) + a.max_intensity_duration)) m0,
      p.1 ∈ m0.map Prod.fst ∨ p.1 ∈ attacks.map (fun a => roundTo1 a.max_intensity) := by
  induction attacks with
  | nil =>
    intro m0 p hp
    left
    exact List.mem_map_of_mem Prod.fst hp
  | cons a l ih =>
    intro m0 p hp
    simp only [List.foldl_cons] at hp
    rcases ih _ p hp with h1 | h2
    · obtain ⟨q, hq, hfst⟩ := List.mem_map.mp h1
      rcases mem_dictSet_keys _ _ _ q hq with h3 | h4
      · left
        rw [← hfst]
        exact h3
      · right
        simp only [List.map_cons, List.mem_cons]
        left
        rw [← hfst]
        exact h4
    · right
      simp only [List.map_cons, List.mem_cons]
      exact Or.inr h2

theorem calculate_intensity_minutes_keys (attacks : List Attack) :
    ∀ p ∈ calculate_intensity_minutes attacks,
      p.1 ∈ attacks.map (fun a => roundTo1 a.max_intensity) := by
  intro p hp
  rcases calculate_intensity_minutes_keys_aux attacks [] p hp with h | h
  · simp at h
  · exact h

theorem mem_bucketKeys_of_bounds {k : ℤ} (h1 : 10 ≤ k) (h2 : k ≤ 100) :
    ((k : ℚ)/10) ∈ bucketKeys := by
  have hlt : k.toNat < 101 := by omega
  have hk : ((k.toNat : ℕ) : ℚ) = (k : ℚ) := by
    exact_mod_cast congrArg (fun z : ℤ => (z : ℚ)) (Int.toNat_of_nonneg (by omega : (0 : ℤ) ≤ k))
  have hmem : ((k.toNat : ℕ) : ℚ)/10 ∈ bucketKeys :=
    List.mem_map_of_mem (fun j : ℕ => (j : ℚ)/10) (List.mem_range.mpr hlt)
  rw [hk] at hmem
  exact hmem

theorem pool_attack_intensity_form {a : Attack}
    (h : ∃ it maxA draws, a ∈ pre_generate_attack_pool it maxA draws) :
    ∃ k : ℤ, 10 ≤ k ∧ k ≤ 100 ∧ a.max_intensity = (k : ℚ)/10 := by
  obtain ⟨it, maxA, draws, ha⟩ := h
  unfold pre_generate_attack_pool at ha
  simp only [List.mem_map, List.mem_range] at ha
  obtain ⟨i, -, rfl⟩ := ha
  rw [mkPoolAttack_max_intensity]
  exact generate_max_pain_intensity_form _ _ _ _

theorem dictAppend_some_of_mem (m : List (ℚ × List ℤ)) (k : ℚ) (v : ℤ)
    (h : k ∈ m.map Prod.fst) :
    ∃ m', dictAppend m k v = some m' ∧ m'.map Prod.fst = m.map Prod.fst := by
  have hany : m.any (fun p => decide (p.1 = k)) = true := by
    simp only [List.any_eq_true, decide_eq_true_eq]
    obtain ⟨p, hp, hpk⟩ := List.mem_map.mp h
    exact ⟨p, hp, hpk⟩
  unfold dictAppend
  rw [if_pos hany]
  refine ⟨_, rfl, ?_⟩
  rw [List.map_map]
  apply List.map_congr_left
  intro p hp
  by_cases hpk : p.1 = k <;> simp [hpk]

theorem bucketStep_some (acc : List (ℚ × ℤ) × List (ℚ × List ℤ)) (kv : ℚ × ℤ)
    (h : roundTo1 kv.1 ∈ acc.2.map Prod.fst) :
    ∃ acc', bucketStep acc kv = some acc' ∧ acc'.2.map Prod.fst = acc.2.map Prod.fst := by
  obtain ⟨m', hm', hkeys⟩ := dictAppend_some_of_mem acc.2 (roundTo1 kv.1) kv.2 h
  simp only [bucketStep]
  rw [hm']
  exact ⟨_, rfl, hkeys⟩

theorem foldlM_bucketStep_some :
    ∀ (items : List (ℚ × ℤ)) (acc : List (ℚ × ℤ) × List (ℚ × List ℤ)),
      (∀ kv ∈ items, roundTo1 kv.1 ∈ acc.2.map Prod.fst) →
      ∃ acc', items.foldlM bucketStep acc = some acc' ∧
        acc'.2.map Prod.fst = acc.2.map Prod.fst := by
  intro items
  induction items with
  | nil => exact fun acc _ => ⟨acc, rfl, rfl⟩
  | cons kv rest ih =>
    intro acc h
    obtain ⟨acc1, h1, hk1⟩ := bucketStep_some acc kv (h kv (List.mem_cons_self kv rest))
    obtain ⟨acc', h2, hk2⟩ := ih acc1
      (fun kv' hkv' => by rw [hk1]; exact h kv' (List.mem_cons_of_mem kv hkv'))
    refine ⟨acc', ?_, by rw [hk2, hk1]⟩
    rw [List.foldlM_cons, h1]
    simpa using h2

theorem foldlM_processPatient_some :
    ∀ (patients : List (List Attack)) (acc : List (ℚ × ℤ) × List (ℚ × List ℤ)),
      (∀ pa ∈ patients, ∀ kv ∈ calculate_intensity_minutes pa,
        roundTo1 kv.1 ∈ acc.2.map Prod.fst) →
      ∃ acc', patients.foldlM processPatient acc = some acc' ∧
        acc'.2.map Prod.fst = acc.2.map Prod.fst := by
  intro patients
  induction patients with
  | nil => exact fun acc _ => ⟨acc, rfl, rfl⟩
  | cons pa rest ih =>
    intro acc h
    obtain ⟨acc1, h1, hk1⟩ :=
      foldlM_bucketStep_some (calculate_intensity_minutes pa) acc
        (h pa (List.mem_cons_self pa rest))
    obtain ⟨acc', h2, hk2⟩ := ih acc1
      (fun pa' hpa' kv' hkv' => by rw [hk1]; exact h pa' (List.mem_cons_of_mem pa hpa') kv' hkv')
    refine ⟨acc', ?_, by rw [hk2, hk1]⟩
    rw [List.foldlM_cons]
    show processPatient acc pa >>= _ = _
    rw [show processPatient acc pa = some acc1 from h1]
    simpa using h2

theorem mapM_isSome_of_forall {α β : Type} (f : α → Option β) :
    ∀ (l : List α), (∀ a ∈ l, (f a).isSome) → (l.mapM f).isSome := by
  intro l
  induction l with
  | nil =>
    intro h'
    rw [List.mapM_nil]
    rfl
  | cons a l ih =>
    intro h
    rw [List.mapM_cons]
    obtain ⟨b, hb⟩ := Option.isSome_iff_exists.mp (h a (List.mem_cons_self a l))
    obtain ⟨bs, hbs⟩ := Option.isSome_iff_exists.mp
      (ih (fun a' ha' => h a' (List.mem_cons_of_mem a ha')))
    rw [hb, hbs]
    simp

theorem init_lists_keys :
    ((bucketKeys.map (fun k => (k, ([] : List ℤ)))).map Prod.fst) = bucketKeys := by
  rw [List.map_map]
  have h : (Prod.fst ∘ fun k : ℚ => (k, ([] : List ℤ))) = id := rfl
  rw [h, List.map_id]

/-! # Claim theorems -/

/-- Claim C9: `transform_intensity` fails fast with a `ValueError` when
`max_value ≤ 0` (the check precedes all curve computation and even the method
dispatch), and every method name outside the six supported ones reaches the
final `raise` (when `max_value > 0`) or the `max_value` check (otherwise) —
either way an error, never a silent default. -/
theorem spec_C9 (x power max_value : ℝ) (method : String) (fit : ℝ × ℝ × ℝ) :
    (max_value ≤ 0 →
      transform_intensity x method power max_value fit = .error "max_value must be positive") ∧
    (method ∉ supportedMethods → ¬ max_value ≤ 0 →
      transform_intensity x method power max_value fit = .error "Invalid method") ∧
    (method ∉ supportedMethods →
      ∃ msg, transform_intensity x method power max_value fit = .error msg) := by
  have herr : method ∉ supportedMethods → ¬ max_value ≤ 0 →
      transform_intensity x method power max_value fit = .error "Invalid method" := by
    intro hm hv
    simp only [supportedMethods, List.mem_cons, List.not_mem_nil, or_false, not_or] at hm
    obtain ⟨h1', h2', h3', h4', h5', h6'⟩ := hm
    unfold transform_intensity
    rw [if_neg hv, if_neg h1', if_neg h2', if_neg h3', if_neg h4', if_neg h5', if_neg h6']
  refine ⟨?_, herr, ?_⟩
  · intro hv
    unfold transform_intensity
    rw [if_pos hv]
  · intro hm
    by_cases hv : max_value ≤ 0
    · exact ⟨_, by unfold transform_intensity; rw [if_pos hv]⟩
    · exact ⟨_, herr hm hv⟩

/-- Witness for C9 at concrete invalid inputs. -/
theorem spec_C9_witness :
    ((-1 : ℝ) ≤ 0 ∧
      transform_intensity 5 "linear" 2 (-1) (0, 0, 0) = .error "max_value must be positive") ∧
    ("sqrt" ∉ supportedMethods ∧ ¬ (100 : ℝ) ≤ 0 ∧
      transform_intensity 5 "sqrt" 2 100 (0, 0, 0) = .error "Invalid method") := by
  refine ⟨⟨by norm_num, (spec_C9 5 2 (-1) "linear" (0, 0, 0)).1 (by norm_num)⟩,
    by decide, by norm_num, (spec_C9 5 2 100 "sqrt" (0, 0, 0)).2.1 (by decide) (by norm_num)⟩

/-- Claim C5: every supported transform method maps intensity 10 to
`max_value` and intensity 0 to 0, for every positive `power` and `max_value`;
for `custom_exp` this holds whenever the fitted parameters interpolate the
endpoint control points `(0, 0)` and `(10, max_value)` (the target of the
3-point, 3-parameter least-squares fit). -/
theorem spec_C5 (method : String) (power max_value A B C : ℝ)
    (hm : method ∈ supportedMethods) (hp : 0 < power) (hmv : 0 < max_value)
    (hfit0 : exp_func A B C 0 = 0) (hfit10 : exp_func A B C 10 = max_value) :
    transform_intensity 10 method power max_value (A, B, C) = .ok max_value ∧
    transform_intensity 0 method power max_value (A, B, C) = .ok 0 := by
  have hnle : ¬ max_value ≤ 0 := not_le.mpr hmv
  simp only [supportedMethods, List.mem_cons, List.not_mem_nil, or_false] at hm
  rcases hm with rfl | rfl | rfl | rfl | rfl | rfl
  · -- linear
    constructor <;> unfold transform_intensity <;> rw [if_neg hnle, if_pos rfl] <;>
      exact congrArg Except.ok (by field_simp)
  · -- power
    have hne : ((10 : ℝ) ^ power) ≠ 0 := ne_of_gt (Real.rpow_pos_of_pos (by norm_num) power)
    constructor <;> unfold transform_intensity <;>
      rw [if_neg hnle, if_neg (by decide), if_pos rfl]
    · exact congrArg Except.ok (by field_simp)
    · exact congrArg Except.ok (by rw [Real.zero_rpow hp.ne', zero_mul])
  · -- power_scaled
    constructor <;> unfold transform_intensity <;>
      rw [if_neg hnle, if_neg (by decide), if_neg (by decide), if_pos rfl]
    · exact congrArg Except.ok
        (by rw [show (10 : ℝ)/10 = 1 by norm_num, Real.one_rpow, one_mul])
    · exact congrArg Except.ok (by rw [zero_div, Real.zero_rpow hp.ne', zero_mul])
  · -- custom_exp
    constructor <;> unfold transform_intensity <;>
      rw [if_neg hnle, if_neg (by decide), if_neg (by decide), if_neg (by decide), if_pos rfl]
    · show Except.ok (exp_func A B C 10) = _
      rw [hfit10]
    · show Except.ok (exp_func A B C 0) = _
      rw [hfit0]
  · -- piecewise_linear
    constructor <;> unfold transform_intensity <;>
      rw [if_neg hnle, if_neg (by decide), if_neg (by decide), if_neg (by decide),
        if_neg (by decide), if_pos rfl]
    · simp only [Except.ok.injEq]
      rw [if_neg (by norm_num : ¬ (10 : ℝ) ≤ 8)]
      ring
    · simp only [Except.ok.injEq]
      rw [if_pos (by norm_num : (0 : ℝ) ≤ 8)]
      ring
  · -- log
    have h4 : ((10 : ℝ) / 2.5) = ((4 : ℕ) : ℝ) := by norm_num
    constructor <;> unfold transform_intensity <;>
      rw [if_neg hnle, if_neg (by decide), if_neg (by decide), if_neg (by decide),
        if_neg (by decide), if_neg (by decide), if_pos rfl]
    · exact congrArg Except.ok (by rw [h4, Real.rpow_natCast]; norm_num; ring)
    · exact congrArg Except.ok
        (by rw [zero_div, Real.rpow_zero]; norm_num)

/-- Witness for C5 at `custom_exp` with an explicit interpolating fit. -/
theorem spec_C5_witness :
    "custom_exp" ∈ supportedMethods ∧ (0 : ℝ) < 2 ∧ (0 : ℝ) < 100 ∧
    exp_func 100 (Real.log 2 / 10) (-100) 0 = 0 ∧
    exp_func 100 (Real.log 2 / 10) (-100) 10 = 100 ∧
    (transform_intensity 10 "custom_exp" 2 100 (100, Real.log 2 / 10, -100) = .ok 100 ∧
      transform_intensity 0 "custom_exp" 2 100 (100, Real.log 2 / 10, -100) = .ok 0) := by
  have h0 : exp_func 100 (Real.log 2 / 10) (-100) 0 = 0 := by
    unfold exp_func
    rw [mul_zero, Real.exp_zero]
    norm_num
  have h10 : exp_func 100 (Real.log 2 / 10) (-100) 10 = 100 := by
    unfold exp_func
    rw [show Real.log 2 / 10 * 10 = Real.log 2 by ring, Real.exp_log (by norm_num : (0:ℝ) < 2)]
    norm_num
  exact ⟨by decide, by norm_num, by norm_num, h0, h10,
    spec_C5 "custom_exp" 2 100 100 (Real.log 2 / 10) (-100) (by decide) (by norm_num)
      (by norm_num) h0 h10⟩

/-- Claim C6: for every positive mean and nonnegative std, `fit_lognormal`
returns `(mu, sigma)` with `mu = ln(mean^2 / sqrt(std^2 + mean^2))` and
`sigma = sqrt(ln(1 + std^2/mean^2))` (definitionally), and the lognormal
distribution with those parameters has analytic mean and standard deviation
exactly equal to the inputs; for a negative mean the round trip fails (the
analytic mean, being positive, cannot reproduce it — the degenerate case;
`mean = 0` divides by zero in floating point). -/
theorem spec_C6 (mean std : ℝ) (hstd : 0 ≤ std) :
    (0 < mean →
      lognormal_mean (fit_lognormal mean std).1 (fit_lognormal mean std).2 = mean ∧
      lognormal_std (fit_lognormal mean std).1 (fit_lognormal mean std).2 = std) ∧
    (mean < 0 →
      lognormal_mean (fit_lognormal mean std).1 (fit_lognormal mean std).2 ≠ mean) := by
  constructor
  · intro hm
    set v := std ^ 2 with hv
    have hm2 : 0 < mean ^ 2 := by positivity
    have hv0 : 0 ≤ v := hv ▸ sq_nonneg std
    have hsum : 0 < v + mean ^ 2 := by linarith
    have hsqrt : 0 < Real.sqrt (v + mean ^ 2) := Real.sqrt_pos.mpr hsum
    have harg : 0 < mean ^ 2 / Real.sqrt (v + mean ^ 2) := div_pos hm2 hsqrt
    have hratio : 0 < 1 + v / mean ^ 2 := by positivity
    have hlogn : 0 ≤ Real.log (1 + v / mean ^ 2) := by
      apply Real.log_nonneg
      have : 0 ≤ v / mean ^ 2 := by positivity
      linarith
    have hmu : (fit_lognormal mean std).1 = Real.log (mean ^ 2 / Real.sqrt (v + mean ^ 2)) :=
      rfl
    have hsig2 : (fit_lognormal mean std).2 ^ 2 = Real.log (1 + v / mean ^ 2) :=
      Real.sq_sqrt hlogn
    have hexpmu : Real.exp (fit_lognormal mean std).1 =
        mean ^ 2 / Real.sqrt (v + mean ^ 2) := by
      rw [hmu]; exact Real.exp_log harg
    have hexpsig : Real.exp ((fit_lognormal mean std).2 ^ 2) = 1 + v / mean ^ 2 := by
      rw [hsig2]; exact Real.exp_log hratio
    have hss : Real.sqrt (v + mean ^ 2) * Real.sqrt (v + mean ^ 2) = v + mean ^ 2 :=
      Real.mul_self_sqrt hsum.le
    have hkey : Real.exp (2 * (fit_lognormal mean std).1 + (fit_lognormal mean std).2 ^ 2) =
        mean ^ 2 := by
      rw [show 2 * (fit_lognormal mean std).1 + (fit_lognormal mean std).2 ^ 2 =
        (fit_lognormal mean std).1 + ((fit_lognormal mean std).1 + (fit_lognormal mean std).2 ^ 2)
        by ring, Real.exp_add, Real.exp_add, hexpmu, hexpsig]
      rw [show mean ^ 2 / Real.sqrt (v + mean ^ 2) *
          (mean ^ 2 / Real.sqrt (v + mean ^ 2) * (1 + v / mean ^ 2)) =
          mean ^ 2 / Real.sqrt (v + mean ^ 2) * (mean ^ 2 / Real.sqrt (v + mean ^ 2)) *
          (1 + v / mean ^ 2) by ring]
      rw [div_mul_div_comm, hss]
      rw [show (1 + v / mean ^ 2) = (v + mean ^ 2) / mean ^ 2 by field_simp; ring]
      rw [div_mul_div_comm, div_eq_iff (by positivity)]
      ring
    constructor
    · have hsq : lognormal_mean (fit_lognormal mean std).1 (fit_lognormal mean std).2 ^ 2 =
          mean ^ 2 := by
        unfold lognormal_mean
        rw [sq, ← Real.exp_add, show
          (fit_lognormal mean std).1 + (fit_lognormal mean std).2 ^ 2 / 2 +
            ((fit_lognormal mean std).1 + (fit_lognormal mean std).2 ^ 2 / 2) =
          2 * (fit_lognormal mean std).1 + (fit_lognormal mean std).2 ^ 2 by ring, hkey]
      have hpos : 0 ≤ lognormal_mean (fit_lognormal mean std).1 (fit_lognormal mean std).2 :=
        (Real.exp_pos _).le
      calc lognormal_mean (fit_lognormal mean std).1 (fit_lognormal mean std).2
          = Real.sqrt (lognormal_mean (fit_lognormal mean std).1
              (fit_lognormal mean std).2 ^ 2) := (Real.sqrt_sq hpos).symm
        _ = Real.sqrt (mean ^ 2) := by rw [hsq]
        _ = mean := Real.sqrt_sq hm.le
    · unfold lognormal_std
      rw [hexpsig, hkey]
      rw [show (1 + v / mean ^ 2 - 1) * mean ^ 2 = v by field_simp, hv]
      exact Real.sqrt_sq hstd
  · intro hm heq
    have hpos := Real.exp_pos
      ((fit_lognormal mean std).1 + (fit_lognormal mean std).2 ^ 2 / 2)
    rw [lognormal_mean] at heq
    linarith

/-- Witness for C6 at `(mean, std) = (2, 1)`. -/
theorem spec_C6_witness :
    (0 : ℝ) ≤ 1 ∧ (0 : ℝ) < 2 ∧
    (lognormal_mean (fit_lognormal 2 1).1 (fit_lognormal 2 1).2 = 2 ∧
      lognormal_std (fit_lognormal 2 1).1 (fit_lognormal 2 1).2 = 1) :=
  ⟨by norm_num, by norm_num, (spec_C6 2 1 (by norm_num)).1 (by norm_num)⟩

/-- Claim C1 (code bug): `Simulation.calculate_results` (and the identical
inner loop of `calculate_group_data`) performs
`total_intensity_minutes.get(round(i, 1), 0) / n_patients` with no
`n_patients > 0` check, so a group with zero simulated patients divides zero
by zero and the aggregation fails (`ZeroDivisionError`, modelled by `none`)
instead of returning all-zero curves. -/
theorem spec_C1 : calculate_results_group [] = none := by
  unfold calculate_results_group
  simp only [List.foldlM_nil, List.length_nil, Nat.cast_zero, Option.pure_def,
    Option.bind_eq_bind, Option.some_bind]
  rw [mapM_pyDiv_zero_ne_nil _ bucketKeys bucketKeys_ne_nil]
  rfl

/-- Claim C8: for every treatment status, pool size `maxA > 0`, replenishment
draw source, day draw and starting state whose pool has length `maxA` and
whose cursor is within bounds, `generate_day_attacks` succeeds (no
`IndexError`), appends exactly the day's drawn attack count to the realized
list (no truncation), regenerates pools of the same size, and leaves the
cursor within bounds — so `pool_index` never indexes past the end of
`attack_pool`. -/
theorem spec_C8 (it : Bool) (maxA : ℕ) (fresh : ℕ → ℕ → AttackDraws) (day_draw : ℚ)
    (s : DayState) (h1 : s.attack_pool.length = maxA) (h2 : s.pool_index ≤ maxA)
    (hpos : 0 < maxA) :
    ∃ s', generate_day_attacks it maxA fresh day_draw s = some s' ∧
      s'.attacks.length = s.attacks.length + generate_attacks_per_day day_draw ∧
      s'.attack_pool.length = maxA ∧ s'.pool_index ≤ maxA :=
  generate_day_attacks_loop_spec it maxA fresh hpos (generate_attacks_per_day day_draw) s h1 h2

/-- Witness for C8: a one-slot pool with a three-attack day forces two
transparent replenishments. -/
theorem spec_C8_witness :
    testDayState.attack_pool.length = 1 ∧ testDayState.pool_index ≤ 1 ∧ 0 < 1 ∧
    (∃ s', generate_day_attacks true 1 (fun _ _ => testDraws) 3 testDayState = some s' ∧
      s'.attacks.length = testDayState.attacks.length + generate_attacks_per_day 3 ∧
      s'.attack_pool.length = 1 ∧ s'.pool_index ≤ 1) := by
  have h1 : testDayState.attack_pool.length = 1 :=
    length_pre_generate_attack_pool true 1 (fun _ => testDraws)
  exact ⟨h1, Nat.zero_le 1, Nat.one_pos,
    spec_C8 true 1 (fun _ _ => testDraws) 3 testDayState h1 (Nat.zero_le 1) Nat.one_pos⟩

/-- Claim C3: every `Attack` produced by the pool-generation step
(`Patient.pre_generate_attack_pool`), for every treatment status (and for
both chronicity cases, which enter only through the duration draw's
distribution), satisfies `15 ≤ total_duration ≤ 360` (an integer),
`1 ≤ max_intensity ≤ 10` with one decimal place, and
`max_intensity_duration = round(0.7 * total_duration)`. -/
theorem spec_C3 (it : Bool) (maxA : ℕ) (draws : ℕ → AttackDraws) (a : Attack)
    (ha : a ∈ pre_generate_attack_pool it maxA draws) :
    (15 ≤ a.total_duration ∧ a.total_duration ≤ 360) ∧
    (1 ≤ a.max_intensity ∧ a.max_intensity ≤ 10) ∧
    (∃ k : ℤ, 10 ≤ k ∧ k ≤ 100 ∧ a.max_intensity = (k : ℚ) / 10) ∧
    a.max_intensity_duration = npRound (7/10 * (a.total_duration : ℚ)) := by
  unfold pre_generate_attack_pool at ha
  simp only [List.mem_map, List.mem_range] at ha
  obtain ⟨i, -, rfl⟩ := ha
  refine ⟨?_, ?_, ?_, mkPoolAttack_mid it (draws i)⟩
  · rw [mkPoolAttack_total_duration]
    exact generate_attack_duration_bounds _ _ _ _
  · rw [mkPoolAttack_max_intensity]
    exact generate_max_pain_intensity_bounds _ _ _ _
  · rw [mkPoolAttack_max_intensity]
    exact generate_max_pain_intensity_form _ _ _ _

/-- Witness for C3 at a concrete pool member. -/
theorem spec_C3_witness :
    mkPoolAttack true testDraws ∈ pre_generate_attack_pool true 1 (fun _ => testDraws) ∧
    ((15 ≤ (mkPoolAttack true testDraws).total_duration ∧
        (mkPoolAttack true testDraws).total_duration ≤ 360) ∧
      (1 ≤ (mkPoolAttack true testDraws).max_intensity ∧
        (mkPoolAttack true testDraws).max_intensity ≤ 10) ∧
      (∃ k : ℤ, 10 ≤ k ∧ k ≤ 100 ∧ (mkPoolAttack true testDraws).max_intensity = (k : ℚ) / 10) ∧
      (mkPoolAttack true testDraws).max_intensity_duration =
        npRound (7/10 * ((mkPoolAttack true testDraws).total_duration : ℚ))) := by
  have hmem : mkPoolAttack true testDraws ∈ pre_generate_attack_pool true 1 (fun _ => testDraws) := by
    simp [pre_generate_attack_pool]
  exact ⟨hmem, spec_C3 true 1 (fun _ => testDraws) _ hmem⟩

/-- Claim C7 counterexample: at the lognormal draw `200.7`, the source computes
`min(int(200.7), 365) = 200`, while the claimed formula
`min(365, round(200.7))` gives `201`. -/
theorem spec_C7_counterexample :
    generate_chronic_active_days (2007/10) ≠ min 365 (npRound (2007/10)) := by
  have hpy : pyInt ((2007 : ℚ)/10) = 200 :=
    pyInt_eq_of_bounds (by norm_num) (by norm_num) (by norm_num)
  have hf : ⌊(2007 : ℚ)/10⌋ = 200 := Int.floor_eq_iff.mpr (by norm_num)
  have hnp : npRound ((2007 : ℚ)/10) = 201 := by
    unfold npRound
    rw [hf, if_neg (by norm_num), if_pos (by norm_num)]
    norm_num
  unfold generate_chronic_active_days
  rw [hpy, hnp]
  omega

/-- Claim C7 (amended): for every nonnegative lognormal draw `X` (with
`mu = ln(200)`, `sigma = 0.5`), `generate_chronic_active_days` returns
`min(365, int(X))` — `int()` truncation (the floor, for nonnegative draws), not
`round` — and the returned active days never exceed 365. -/
theorem spec_C7 (draw : ℚ) (h : 0 ≤ draw) :
    generate_chronic_active_days draw = min 365 ⌊draw⌋ ∧
    generate_chronic_active_days draw ≤ 365 := by
  unfold generate_chronic_active_days pyInt
  rw [if_pos h]
  exact ⟨min_comm _ _, min_le_right _ _⟩

/-- Witness for C7 at the concrete draw `400`. -/
theorem spec_C7_witness :
    (0 : ℚ) ≤ 400 ∧
    (generate_chronic_active_days 400 = min 365 ⌊(400 : ℚ)⌋ ∧
      generate_chronic_active_days 400 ≤ 365) :=
  ⟨by norm_num, spec_C7 400 (by norm_num)⟩

/-- Claim C2: with the complements derived as the spec prescribes
(`prop_episodic = 1 - prop_chronic`, `prop_untreated = 1 - prop_treated`, the
`SimulationConfig` module being outside `src/`), both
`Simulation.calculate_ch_groups` and the equivalent computation in `main`
yield `Episodic Treated = int(total_ch_sufferers * (1 - prop_chronic) *
prop_treated)` and likewise for the other three cells. -/
theorem spec_C2 (c : SimulationConfig) (apk wp af pc pt : ℚ) :
    ((calculate_ch_groups c).episodic_treated =
        pyInt (total_ch_sufferers c * (1 - c.prop_chronic) * c.prop_treated) ∧
      (calculate_ch_groups c).episodic_untreated =
        pyInt (total_ch_sufferers c * (1 - c.prop_chronic) * (1 - c.prop_treated)) ∧
      (calculate_ch_groups c).chronic_treated =
        pyInt (total_ch_sufferers c * c.prop_chronic * c.prop_treated) ∧
      (calculate_ch_groups c).chronic_untreated =
        pyInt (total_ch_sufferers c * c.prop_chronic * (1 - c.prop_treated))) ∧
    ((main_ch_groups apk wp af pc pt).episodic_treated =
        pyInt (wp * af * (apk / 100000) * (1 - pc) * pt) ∧
      (main_ch_groups apk wp af pc pt).episodic_untreated =
        pyInt (wp * af * (apk / 100000) * (1 - pc) * (1 - pt)) ∧
      (main_ch_groups apk wp af pc pt).chronic_treated =
        pyInt (wp * af * (apk / 100000) * pc * pt) ∧
      (main_ch_groups apk wp af pc pt).chronic_untreated =
        pyInt (wp * af * (apk / 100000) * pc * (1 - pt))) :=
  ⟨⟨rfl, rfl, rfl, rfl⟩, rfl, rfl, rfl, rfl⟩

/-- Claim C4 counterexample: at the spec's end-to-end configuration the exact
value of `world_population * adult_fraction * annual_prevalence` is
`8,200,000,000 * 0.72 * 0.00053 = 3,129,120`, so `get_total_ch_sufferers` is
not within 1 of the claimed `3,133,440`. -/
theorem spec_C4_counterexample :
    ¬ (3133440 - 1 ≤ get_total_ch_sufferers config_scenario ∧
        get_total_ch_sufferers config_scenario ≤ 3133440 + 1) := by
  rw [get_total_ch_sufferers_scenario]
  omega

/-- Claim C4 (amended): in exact arithmetic the scenario's
`get_total_ch_sufferers` is `3,129,120`, and the `Episodic Treated` simulated
patient count is `int(int(3,129,120 * 0.80 * 0.48) * 0.0002) = 240`, within
the claimed ±5 window around `3,129,120 * 0.80 * 0.48 * 0.0002 ≈ 240.3`. -/
theorem spec_C4 :
    get_total_ch_sufferers config_scenario = 3129120 ∧
    n_simulated config_scenario (calculate_ch_groups config_scenario).episodic_treated = 240 := by
  have hET : (calculate_ch_groups config_scenario).episodic_treated = 1201582 := by
    show pyInt (total_ch_sufferers config_scenario *
      config_scenario.prop_episodic * config_scenario.prop_treated) = 1201582
    rw [total_ch_sufferers_scenario]
    apply pyInt_eq_of_bounds <;>
      norm_num [config_scenario, SimulationConfig.prop_episodic]
  refine ⟨get_total_ch_sufferers_scenario, ?_⟩
  rw [n_simulated, hET]
  apply pyInt_eq_of_bounds <;> norm_num [config_scenario]

/-- Claim C10: for patients whose realized attacks all come from generated
attack pools, every key of `calculate_intensity_minutes` is `k/10` for an
integer `10 ≤ k ≤ 100` (pool intensities are clamped to `[1, 10]` and rounded
to one decimal), hence lies among the 101 precomputed bucket keys — so the
aggregation's `intensity_minutes_list[rounded_intensity]` lookup never raises
a `KeyError`, and for a nonempty group the whole per-group aggregation
succeeds. -/
theorem spec_C10 (patients : List (List Attack))
    (hpool : ∀ pa ∈ patients, ∀ a ∈ pa,
      ∃ it maxA draws, a ∈ pre_generate_attack_pool it maxA draws)
    (hne : patients ≠ []) :
    (∀ pa ∈ patients, ∀ kv ∈ calculate_intensity_minutes pa,
      ∃ k : ℤ, 10 ≤ k ∧ k ≤ 100 ∧ kv.1 = (k : ℚ)/10 ∧ kv.1 ∈ bucketKeys) ∧
    (calculate_results_group patients).isSome := by
  have hkeyform : ∀ pa ∈ patients, ∀ kv ∈ calculate_intensity_minutes pa,
      ∃ k : ℤ, 10 ≤ k ∧ k ≤ 100 ∧ kv.1 = (k : ℚ)/10 ∧ kv.1 ∈ bucketKeys := by
    intro pa hpa kv hkv
    obtain ⟨a, ha, hfst⟩ := List.mem_map.mp (calculate_intensity_minutes_keys pa kv hkv)
    obtain ⟨k, hk1, hk2, hk3⟩ := pool_attack_intensity_form (hpool pa hpa a ha)
    have hkey : kv.1 = (k : ℚ)/10 := by
      rw [← hfst, hk3, roundTo1_int_div_ten]
    exact ⟨k, hk1, hk2, hkey, hkey ▸ mem_bucketKeys_of_bounds hk1 hk2⟩
  refine ⟨hkeyform, ?_⟩
  obtain ⟨acc, hacc, hkeys⟩ := foldlM_processPatient_some patients
    ([], bucketKeys.map (fun k => (k, ([] : List ℤ))))
    (by
      intro pa hpa kv hkv
      show roundTo1 kv.1 ∈ (bucketKeys.map (fun k => (k, ([] : List ℤ)))).map Prod.fst
      rw [init_lists_keys]
      obtain ⟨k, hk1, hk2, heq, hmem⟩ := hkeyform pa hpa kv hkv
      rw [heq, roundTo1_int_div_ten]
      exact heq ▸ hmem)
  have hn : ((patients.length : ℚ)) ≠ 0 := by
    have : patients.length ≠ 0 := fun h => hne (List.length_eq_zero.mp h)
    exact_mod_cast this
  obtain ⟨avg, havg⟩ := Option.isSome_iff_exists.mp
    (mapM_isSome_of_forall (fun k => pyDiv (dictGet acc.1 k : ℚ) (patients.length : ℚ))
      bucketKeys (fun k _ => by simp [pyDiv, hn]))
  unfold calculate_results_group
  simp only [hacc, Option.pure_def, Option.bind_eq_bind, Option.some_bind, havg]
  rfl

/-- Witness for C10 at a concrete one-patient group drawn from a concrete
pool. -/
theorem spec_C10_witness :
    (∀ pa ∈ [[mkPoolAttack true testDraws]], ∀ a ∈ pa,
      ∃ it maxA draws, a ∈ pre_generate_attack_pool it maxA draws) ∧
    ([[mkPoolAttack true testDraws]] ≠ ([] : List (List Attack))) ∧
    ((∀ pa ∈ [[mkPoolAttack true testDraws]], ∀ kv ∈ calculate_intensity_minutes pa,
        ∃ k : ℤ, 10 ≤ k ∧ k ≤ 100 ∧ kv.1 = (k : ℚ)/10 ∧ kv.1 ∈ bucketKeys) ∧
      (calculate_results_group [[mkPoolAttack true testDraws]]).isSome) := by
  have hpool : ∀ pa ∈ [[mkPoolAttack true testDraws]], ∀ a ∈ pa,
      ∃ it maxA draws, a ∈ pre_generate_attack_pool it maxA draws := by
    intro pa hpa a ha
    simp only [List.mem_singleton] at hpa
    subst hpa
    simp only [List.mem_singleton] at ha
    subst ha
    exact ⟨true, 1, fun _ => testDraws, by simp [pre_generate_attack_pool]⟩
  have hne : [[mkPoolAttack true testDraws]] ≠ ([] : List (List Attack)) := by decide
  exact ⟨hpool, hne, spec_C10 [[mkPoolAttack true testDraws]] hpool hne⟩

end ClusterHeadache
